import Mathlib

/-!
Shallow embedding of the signal-conditioning core of
`src/biomedical_filtering.py` (functions `filter_signal` and the
sampling-rate estimation inside `main`), over exact rationals.

Modelling conventions:
* Python/numpy floats are modelled as `ℚ` (exact arithmetic); the two
  non-finite float paths the estimator can actually reach are made
  explicit as error constructors, because in CPython they end in raised
  exceptions: `round(nan)` raises `ValueError` and `round(inf)` raises
  `OverflowError`.
* Fallible code returns `Except`.
* `scipy.signal.butter` computes transcendental coefficients (bilinear
  transform); its output is treated as an opaque pair of coefficient
  vectors, passed as parameters where needed, while the validation and
  preset logic of `filter_signal` (which lives in the repository) is
  embedded faithfully.
* `scipy.signal.filtfilt` is embedded structurally (odd extension,
  forward `lfilter`, reverse, `lfilter`, reverse, slice) with the
  steady-state initial-condition vector `zi` (scipy's `lfilter_zi`, a
  linear solve determined by the coefficients) as a parameter.
-/

deriving instance DecidableEq for Except

/-- Rounding as Python's built-in `round` on a float: round half to even
(banker's rounding). The source computes `round(1 / np.mean(time_diffs))`. -/
def roundHalfEven (q : ℚ) : ℤ :=
  let n := ⌊q⌋
  let frac := q - n
  if frac < 1/2 then n
  else if 1/2 < frac then n + 1
  else if n % 2 = 0 then n else n + 1

/-- Successive differences of a timestamp list: `np.diff(df[Time_sec])`,
entry `i` is `ts[i+1] - ts[i]`. -/
def timeDiffs (ts : List ℚ) : List ℚ :=
  List.zipWith (fun a b => b - a) ts ts.tail

/-- Mean of the successive differences, `np.mean(time_diffs)` (only
meaningful when the difference list is nonempty). -/
def meanDiff (ts : List ℚ) : ℚ :=
  (timeDiffs ts).sum / (timeDiffs ts).length

/-- The two failure modes of the sampling-rate computation in `main`
(lines 113-114): with fewer than 2 timestamps `np.diff` is empty, so
`np.mean` is NaN and `round(nan)` raises `ValueError` (`nanRound`); with
a zero mean difference `1/0.0` is infinite and `round(inf)` raises
`OverflowError` (`infRound`). -/
inductive EstimateError where
  | nanRound
  | infRound
  deriving DecidableEq, Repr

/-- Sampling-rate estimation from `main`:
`fs = round(1 / np.mean(np.diff(df[Time_sec])))`, with the actual
failure modes of that expression made explicit. -/
def estimate_fs (ts : List ℚ) : Except EstimateError ℤ :=
  if (timeDiffs ts).length = 0 then .error .nanRound
  else if meanDiff ts = 0 then .error .infRound
  else .ok (roundHalfEven (1 / meanDiff ts))

/-- Errors raised by `filter_signal` (lines 57-88): the `else` branch of
the signal-type dispatch (`unsupportedSignalType`, a `ValueError`), the
Python `ZeroDivisionError` from `lowcut / nyq` when `fs = 0`
(`zeroDivision`), the explicit range check (`invalidFilterRange`, a
`ValueError` whose message carries fs, lowcut and highcut), and scipy's
`ValueError` inside `filtfilt` when the input is not longer than the
padding length (`insufficientSamples`). -/
inductive FilterError where
  | unsupportedSignalType
  | zeroDivision
  | invalidFilterRange (fs lowcut highcut : ℚ)
  | insufficientSamples
  deriving DecidableEq, Repr

/-- The signal-type dispatch of `filter_signal` (lines 72-79), the
spec's preset table: the `if signal_type == 'ecg' ... elif ... 'eeg'`
chain selecting `(lowcut, highcut)`. -/
def presetLookup (signal_type : String) : Option (ℚ × ℚ) :=
  if signal_type = "ecg" then some (1/2, 45)
  else if signal_type = "eeg" then some (1, 30)
  else none

/-- The design stage of `filter_signal` (lines 70-87): `nyq = 0.5*fs`,
preset dispatch, `low = lowcut/nyq`, `high = highcut/nyq`, check
`0 < low < high < 1`, else raise. On success the code calls
`butter(order, [low, high], btype='band')`, which succeeds on every
band with `0 < low < high < 1`; since its coefficients are
transcendental, success is modelled as returning the validated
`(lowcut, highcut, order)` triple. The default `order=4` mirrors the
Python default parameter (and `main` never overrides it). -/
def designFilter (signal_type : String) (fs : ℚ) (order : ℕ := 4) :
    Except FilterError (ℚ × ℚ × ℕ) :=
  let nyq := fs / 2
  match presetLookup signal_type with
  | none => .error .unsupportedSignalType
  | some (lowcut, highcut) =>
    if nyq = 0 then .error .zeroDivision
    else
      let low := lowcut / nyq
      let high := highcut / nyq
      if 0 < low ∧ low < high ∧ high < 1 then .ok (lowcut, highcut, order)
      else .error (.invalidFilterRange fs lowcut highcut)

/-- One step of `scipy.signal.lfilter` in direct form II transposed,
on coefficients already normalized by `a[0]`: output
`y = b[0]*x + z[0]` and updated state
`z[i] = b[i+1]*x + z[i+1] - a[i+1]*y` (missing entries read as 0). -/
def lfilterStep (b a z : List ℚ) (x : ℚ) : ℚ × List ℚ :=
  let y := b.headD 0 * x + z.headD 0
  (y, (List.range z.length).map fun i =>
        b.getD (i + 1) 0 * x + z.getD (i + 1) 0 - a.getD (i + 1) 0 * y)

/-- Runs the `lfilter` recurrence over the input, threading the state. -/
def lfilterAux (b a : List ℚ) : List ℚ → List ℚ → List ℚ
  | _, [] => []
  | z, x :: xs =>
    let p := lfilterStep b a z x
    p.1 :: lfilterAux b a p.2 xs

/-- `scipy.signal.lfilter b a x zi`: normalizes both coefficient
vectors by `a[0]` and runs the direct-form recurrence from the initial
state `zi`. -/
def lfilter (b a zi x : List ℚ) : List ℚ :=
  let a0 := a.headD 0
  lfilterAux (b.map (· / a0)) (a.map (· / a0)) zi x

/-- `scipy.signal._arraytools.odd_ext x n`: prepends
`2*x[0] - x[n..1]` and appends `2*x[last] - x[len-2..len-1-n]`,
the odd reflection used by `filtfilt`'s default padding. -/
def odd_ext (n : ℕ) (x : List ℚ) : List ℚ :=
  ((List.range n).map fun i => 2 * x.headD 0 - x.getD (n - i) 0)
    ++ x
    ++ ((List.range n).map fun i => 2 * x.getLastD 0 - x.getD (x.length - 2 - i) 0)

/-- Default padding length of `scipy.signal.filtfilt`:
`padlen = 3 * max(len(a), len(b))`. -/
def padlenOf (b a : List ℚ) : ℕ := 3 * max a.length b.length

/-- The computation `filtfilt` performs once its length check has
passed: odd-extend, filter forward from state `zi * ext[0]`, reverse,
filter again from state `zi * y[0]`, reverse, and slice the padding
off. The steady-state vector `zi` (scipy's `lfilter_zi`, a linear
solve determined by the coefficients) is a parameter of the model. -/
def filtfiltRun (b a zi x : List ℚ) : List ℚ :=
  let p := padlenOf b a
  let ext := odd_ext p x
  let y1 := lfilter b a (zi.map (· * ext.headD 0)) ext
  let y1r := y1.reverse
  let y2 := lfilter b a (zi.map (· * y1r.headD 0)) y1r
  ((y2.reverse).drop p).take x.length

/-- `scipy.signal.filtfilt b a x` as called on line 88: raises
`ValueError` (modelled as `insufficientSamples`) unless the input is
strictly longer than the padding length, then runs the
forward-backward filter. -/
def filtfilt (b a zi x : List ℚ) : Except FilterError (List ℚ) :=
  if x.length ≤ padlenOf b a then .error .insufficientSamples
  else .ok (filtfiltRun b a zi x)


/-! Helper lemmas shared by the claim theorems. -/

theorem timeDiffs_length (ts : List ℚ) : (timeDiffs ts).length = ts.length - 1 := by
  cases ts with
  | nil => rfl
  | cons a l => simp [timeDiffs]

theorem timeDiffs_cons₂ (a b : ℚ) (l : List ℚ) :
    timeDiffs (a :: b :: l) = (b - a) :: timeDiffs (b :: l) := rfl

theorem timeDiffs_pos_of_chain :
    ∀ ts : List ℚ, ts.Chain' (· < ·) → ∀ d ∈ timeDiffs ts, 0 < d
  | [], _, d, hd => by simp [timeDiffs] at hd
  | [_], _, d, hd => by simp [timeDiffs] at hd
  | a :: b :: l, h, d, hd => by
    rw [timeDiffs_cons₂] at hd
    rcases List.mem_cons.mp hd with h1 | h2
    · have hab : a < b := (List.chain'_cons.mp h).1
      rw [h1]
      linarith
    · exact timeDiffs_pos_of_chain (b :: l) (List.chain'_cons.mp h).2 d h2

theorem meanDiff_pos_of_chain (ts : List ℚ) (h2 : 2 ≤ ts.length)
    (hch : ts.Chain' (· < ·)) : 0 < meanDiff ts := by
  have hlen : (timeDiffs ts).length = ts.length - 1 := timeDiffs_length ts
  have hne : timeDiffs ts ≠ [] := by
    intro h
    rw [h] at hlen
    simp at hlen
    omega
  have hsum : 0 < (timeDiffs ts).sum :=
    List.sum_pos _ (timeDiffs_pos_of_chain ts hch) hne
  have hlpos : 0 < ((timeDiffs ts).length : ℚ) := by
    have : 0 < (timeDiffs ts).length := List.length_pos.mpr hne
    exact_mod_cast this
  exact div_pos hsum hlpos

theorem estimate_fs_of_mean_ne (ts : List ℚ) (h2 : 2 ≤ ts.length)
    (hm : meanDiff ts ≠ 0) :
    estimate_fs ts = .ok (roundHalfEven (1 / meanDiff ts)) := by
  have hlen : (timeDiffs ts).length = ts.length - 1 := timeDiffs_length ts
  unfold estimate_fs
  rw [if_neg (by omega), if_neg hm]

theorem meanDiff_const (ts : List ℚ) (Δ : ℚ) (h2 : 2 ≤ ts.length)
    (hall : ∀ d ∈ timeDiffs ts, d = Δ) : meanDiff ts = Δ := by
  have hlen : (timeDiffs ts).length = ts.length - 1 := timeDiffs_length ts
  have hlq : ((timeDiffs ts).length : ℚ) ≠ 0 := by
    have : (timeDiffs ts).length ≠ 0 := by omega
    exact_mod_cast this
  unfold meanDiff
  rw [List.sum_eq_card_nsmul _ _ hall, nsmul_eq_mul]
  exact mul_div_cancel_left₀ _ hlq

theorem roundHalfEven_nonpos (q : ℚ) (h : q < 0) : roundHalfEven q ≤ 0 := by
  have hn : ⌊q⌋ < 0 := Int.floor_lt.mpr (by exact_mod_cast h)
  unfold roundHalfEven
  dsimp only
  split_ifs <;> omega

theorem designFilter_unknown (st : String) (h1 : st ≠ "ecg") (h2 : st ≠ "eeg")
    (fs : ℚ) (order : ℕ) :
    designFilter st fs order = .error .unsupportedSignalType := by
  unfold designFilter presetLookup
  rw [if_neg h1, if_neg h2]

theorem lfilterAux_length (b a z x : List ℚ) :
    (lfilterAux b a z x).length = x.length := by
  induction x generalizing z with
  | nil => rfl
  | cons hd tl ih => simp [lfilterAux, ih]

theorem lfilter_length (b a zi x : List ℚ) :
    (lfilter b a zi x).length = x.length := by
  simp [lfilter, lfilterAux_length]

theorem odd_ext_length (n : ℕ) (x : List ℚ) :
    (odd_ext n x).length = n + x.length + n := by
  simp [odd_ext]
  omega

theorem filtfiltRun_length (b a zi x : List ℚ) :
    (filtfiltRun b a zi x).length = x.length := by
  simp [filtfiltRun, lfilter_length, odd_ext_length]

theorem presetLookup_ecg : presetLookup "ecg" = some (1/2, 45) := by
  simp [presetLookup]

theorem presetLookup_eeg : presetLookup "eeg" = some (1, 30) := by
  simp [presetLookup]

theorem designFilter_nyq_zero (st : String) (lc hc : ℚ)
    (hst : presetLookup st = some (lc, hc)) (fs : ℚ) (hz : fs / 2 = 0)
    (order : ℕ) :
    designFilter st fs order = .error .zeroDivision := by
  simp [designFilter, hst, hz]

theorem designFilter_eval (st : String) (lc hc : ℚ)
    (hst : presetLookup st = some (lc, hc)) (fs : ℚ) (hz : fs / 2 ≠ 0)
    (order : ℕ) :
    designFilter st fs order =
      if 0 < lc / (fs / 2) ∧ lc / (fs / 2) < hc / (fs / 2) ∧ hc / (fs / 2) < 1
      then .ok (lc, hc, order)
      else .error (.invalidFilterRange fs lc hc) := by
  simp only [designFilter, hst]
  rw [if_neg hz]

/-! The claim theorems. -/

/-- C1: for every timestamp sequence with at least 2 strictly increasing
entries, the estimation returns `round(1 / mean(successive differences))`
(round half to even, as Python's `round`); for constant spacing Δ (all
successive differences equal to Δ > 0) it returns `round(1/Δ)`; and the
scenario `[0.0, 0.01, 0.02, 0.03]` yields fs = 100. -/
theorem C1_estimate_round_inv_mean :
    (∀ ts : List ℚ, 2 ≤ ts.length → ts.Chain' (· < ·) →
      estimate_fs ts = .ok (roundHalfEven (1 / meanDiff ts)))
    ∧ (∀ (ts : List ℚ) (Δ : ℚ), 2 ≤ ts.length → 0 < Δ →
        (∀ d ∈ timeDiffs ts, d = Δ) →
        estimate_fs ts = .ok (roundHalfEven (1 / Δ)))
    ∧ estimate_fs [0, 1/100, 2/100, 3/100] = .ok 100 := by
  refine ⟨fun ts h2 hch => ?_, fun ts Δ h2 hΔ hall => ?_, ?_⟩
  · exact estimate_fs_of_mean_ne ts h2
      (ne_of_gt (meanDiff_pos_of_chain ts h2 hch))
  · have hm := meanDiff_const ts Δ h2 hall
    rw [estimate_fs_of_mean_ne ts h2 (by rw [hm]; exact ne_of_gt hΔ), hm]
  · simp [estimate_fs, meanDiff, timeDiffs, roundHalfEven]

/-- Witness for C1 at the spec's scenario input. -/
theorem C1_witness :
    2 ≤ ([0, 1/100, 2/100, 3/100] : List ℚ).length
    ∧ List.Chain' (· < ·) [(0:ℚ), 1/100, 2/100, 3/100]
    ∧ estimate_fs [0, 1/100, 2/100, 3/100]
        = .ok (roundHalfEven (1 / meanDiff [0, 1/100, 2/100, 3/100])) :=
  ⟨by simp, by norm_num [List.chain'_cons, List.chain'_singleton],
    C1_estimate_round_inv_mean.1 _ (by simp)
      (by norm_num [List.chain'_cons, List.chain'_singleton])⟩

/-- C2 counterexample: at fs = 0 (an allowed value of "every sampling
rate fs", and in particular fs < 2×highcut), the code fails with a
`ZeroDivisionError` from `lowcut / nyq` before the range check runs, not
with the invalid-range error the claim requires. -/
theorem C2_counterexample :
    designFilter "ecg" 0 = .error .zeroDivision
    ∧ designFilter "ecg" 0 ≠ .error (.invalidFilterRange 0 (1/2) 45) := by
  have h : designFilter "ecg" 0 = .error .zeroDivision := by
    simp [designFilter, presetLookup]
  exact ⟨h, by rw [h]; simp⟩

/-- C2 (amended to every nonzero fs): for both presets, the design
checks `0 < lowcut/(fs/2) < highcut/(fs/2) < 1`; when the check fails it
raises the invalid-range error carrying fs, lowcut and highcut, and when
it passes the design succeeds. In particular it fails for every
0 < fs < 2×highcut, for the scenario ecg/50, and succeeds for ecg/100. -/
theorem C2_design_range_check :
    (∀ (st : String) (lc hc : ℚ), presetLookup st = some (lc, hc) →
      ∀ fs : ℚ, fs ≠ 0 →
        (¬(0 < lc / (fs / 2) ∧ lc / (fs / 2) < hc / (fs / 2) ∧ hc / (fs / 2) < 1) →
          designFilter st fs = .error (.invalidFilterRange fs lc hc))
        ∧ ((0 < lc / (fs / 2) ∧ lc / (fs / 2) < hc / (fs / 2) ∧ hc / (fs / 2) < 1) →
          designFilter st fs = .ok (lc, hc, 4)))
    ∧ (∀ fs : ℚ, 0 < fs → fs < 90 →
        designFilter "ecg" fs = .error (.invalidFilterRange fs (1/2) 45))
    ∧ (∀ fs : ℚ, 0 < fs → fs < 60 →
        designFilter "eeg" fs = .error (.invalidFilterRange fs 1 30))
    ∧ designFilter "ecg" 50 = .error (.invalidFilterRange 50 (1/2) 45)
    ∧ designFilter "ecg" 100 = .ok (1/2, 45, 4) := by
  have hz : ∀ fs : ℚ, fs ≠ 0 → fs / 2 ≠ 0 := by
    intro fs hfs h
    rcases div_eq_zero_iff.mp h with h' | h'
    · exact hfs h'
    · norm_num at h'
  refine ⟨?_, ?_, ?_, ?_, ?_⟩
  · intro st lc hc hst fs hfs
    rw [designFilter_eval st lc hc hst fs (hz fs hfs) 4]
    constructor
    · intro hno
      rw [if_neg hno]
    · intro hyes
      rw [if_pos hyes]
  · intro fs h0 h90
    have h2 : (0:ℚ) < fs / 2 := by positivity
    rw [designFilter_eval "ecg" _ _ presetLookup_ecg fs (ne_of_gt h2) 4,
      if_neg]
    rintro ⟨-, -, hlt⟩
    rw [div_lt_one h2] at hlt
    linarith
  · intro fs h0 h60
    have h2 : (0:ℚ) < fs / 2 := by positivity
    rw [designFilter_eval "eeg" _ _ presetLookup_eeg fs (ne_of_gt h2) 4,
      if_neg]
    rintro ⟨-, -, hlt⟩
    rw [div_lt_one h2] at hlt
    linarith
  · simp [designFilter, presetLookup]
    norm_num
  · simp [designFilter, presetLookup]
    norm_num

/-- Witness for C2 at signal type ecg with fs = 200 (valid band). -/
theorem C2_witness :
    presetLookup "ecg" = some (1/2, 45) ∧ (200:ℚ) ≠ 0
    ∧ (0 < (1/2 : ℚ) / (200 / 2) ∧ (1/2 : ℚ) / (200 / 2) < 45 / (200 / 2)
        ∧ (45 : ℚ) / (200 / 2) < 1)
    ∧ designFilter "ecg" 200 = .ok (1/2, 45, 4) :=
  ⟨presetLookup_ecg, by norm_num, by norm_num,
    (C2_design_range_check.1 "ecg" _ _ presetLookup_ecg 200 (by norm_num)).2
      (by norm_num)⟩

/-- C3: for every timestamp sequence with fewer than 2 elements, the
estimation fails (the difference list is empty, `np.mean` is NaN, and
`round(nan)` raises), and it fails in no other way: `nanRound` is the
single error this input class produces, the failure the spec names
`InsufficientDataError`. -/
theorem C3_estimate_short_input (ts : List ℚ) (h : ts.length < 2) :
    estimate_fs ts = .error .nanRound := by
  have := timeDiffs_length ts
  unfold estimate_fs
  rw [if_pos (by omega)]

/-- Witness for C3 at the empty timestamp list. -/
theorem C3_witness :
    ([] : List ℚ).length < 2 ∧ estimate_fs [] = .error .nanRound :=
  ⟨by simp, C3_estimate_short_input [] (by simp)⟩

/-- C4 counterexample: on the non-monotonic timestamps `[0, -1]` the
mean successive difference is negative, yet the estimation does not fail
at all — it silently returns the negative rate -1, contradicting the
claim that it fails with a degenerate-timing error. -/
theorem C4_counterexample :
    meanDiff [(0:ℚ), -1] < 0 ∧ estimate_fs [(0:ℚ), -1] = .ok (-1) := by
  constructor
  · norm_num [meanDiff, timeDiffs]
  · simp [estimate_fs, meanDiff, timeDiffs, roundHalfEven]
    norm_num [Int.fract]

/-- C4 (amended): with at least 2 timestamps, a zero mean difference
makes the estimation fail (the reciprocal is infinite and `round(inf)`
raises) — but not through any explicit check — while a negative mean
difference is not detected at all: the estimation returns
`round(1/mean)`, a non-positive rate. -/
theorem C4_degenerate_timing :
    (∀ ts : List ℚ, 2 ≤ ts.length → meanDiff ts = 0 →
      estimate_fs ts = .error .infRound)
    ∧ (∀ ts : List ℚ, 2 ≤ ts.length → meanDiff ts < 0 →
      estimate_fs ts = .ok (roundHalfEven (1 / meanDiff ts))
        ∧ roundHalfEven (1 / meanDiff ts) ≤ 0) := by
  constructor
  · intro ts h2 hm
    have := timeDiffs_length ts
    unfold estimate_fs
    rw [if_neg (by omega), if_pos hm]
  · intro ts h2 hm
    exact ⟨estimate_fs_of_mean_ne ts h2 (ne_of_lt hm),
      roundHalfEven_nonpos _ (one_div_neg.mpr hm)⟩

/-- Witness for C4 on `[0, 1, 0]`, whose mean difference is zero. -/
theorem C4_witness :
    2 ≤ ([0, 1, 0] : List ℚ).length ∧ meanDiff [(0:ℚ), 1, 0] = 0
    ∧ estimate_fs [(0:ℚ), 1, 0] = .error .infRound :=
  ⟨by simp, by norm_num [meanDiff, timeDiffs],
    C4_degenerate_timing.1 _ (by simp) (by norm_num [meanDiff, timeDiffs])⟩

/-- C5: the preset table is fixed: ecg maps to `(0.5, 45.0, 4)` and eeg
to `(1.0, 30.0, 4)`, and every successful design invocation returns
exactly that triple. -/
theorem C5_preset_table :
    presetLookup "ecg" = some (1/2, 45)
    ∧ presetLookup "eeg" = some (1, 30)
    ∧ (∀ (fs : ℚ) (r : ℚ × ℚ × ℕ),
        designFilter "ecg" fs = .ok r → r = (1/2, 45, 4))
    ∧ (∀ (fs : ℚ) (r : ℚ × ℚ × ℕ),
        designFilter "eeg" fs = .ok r → r = (1, 30, 4)) := by
  refine ⟨presetLookup_ecg, presetLookup_eeg, ?_, ?_⟩
  · intro fs r h
    by_cases hz : fs / 2 = 0
    · rw [designFilter_nyq_zero _ _ _ presetLookup_ecg fs hz 4] at h
      exact absurd h (by simp)
    · rw [designFilter_eval _ _ _ presetLookup_ecg fs hz 4] at h
      split_ifs at h
      simp_all
  · intro fs r h
    by_cases hz : fs / 2 = 0
    · rw [designFilter_nyq_zero _ _ _ presetLookup_eeg fs hz 4] at h
      exact absurd h (by simp)
    · rw [designFilter_eval _ _ _ presetLookup_eeg fs hz 4] at h
      split_ifs at h
      simp_all

/-- Witness for C5: a successful ecg design at fs = 100. -/
theorem C5_witness :
    designFilter "ecg" 100 = .ok (1/2, 45, 4)
    ∧ ((1/2 : ℚ), (45 : ℚ), (4 : ℕ)) = (1/2, 45, 4) :=
  have h : designFilter "ecg" 100 = .ok (1/2, 45, 4) := by
    simp [designFilter, presetLookup]
    norm_num
  ⟨h, C5_preset_table.2.2.1 100 _ h⟩

/-- C6: for every signal type other than "ecg" and "eeg", design fails
with the unsupported-signal-type error for every fs and order — the
dispatch raises before the band is normalized or validated. -/
theorem C6_unsupported_type (st : String) (h1 : st ≠ "ecg")
    (h2 : st ≠ "eeg") (fs : ℚ) (order : ℕ) :
    designFilter st fs order = .error .unsupportedSignalType :=
  designFilter_unknown st h1 h2 fs order

/-- Witness for C6: the type "emg" at fs = 0 (a value on which the later
stages would themselves fail, showing the dispatch error comes first). -/
theorem C6_witness :
    ("emg" : String) ≠ "ecg" ∧ ("emg" : String) ≠ "eeg"
    ∧ designFilter "emg" 0 = .error .unsupportedSignalType :=
  ⟨by decide, by decide, C6_unsupported_type "emg" (by decide) (by decide) 0 4⟩

/-- C7: whenever the input is longer than the padding length the
zero-phase filter application succeeds and returns a sequence of exactly
the input's length (in this exact-arithmetic model every entry is a
rational number, hence finite). -/
theorem C7_filtfilt_length (b a zi x : List ℚ) (h : padlenOf b a < x.length) :
    filtfilt b a zi x = .ok (filtfiltRun b a zi x)
    ∧ (filtfiltRun b a zi x).length = x.length := by
  refine ⟨?_, filtfiltRun_length b a zi x⟩
  unfold filtfilt
  rw [if_neg (by omega)]

/-- Witness for C7 with order-4 bandpass-shaped coefficient vectors
(9 taps, padlen 27) on a 28-sample input. -/
theorem C7_witness :
    padlenOf (List.replicate 9 (1:ℚ)) (List.replicate 9 1)
        < (List.replicate 28 (0:ℚ)).length
    ∧ (filtfilt (List.replicate 9 (1:ℚ)) (List.replicate 9 1)
          (List.replicate 8 0) (List.replicate 28 0)
        = .ok (filtfiltRun (List.replicate 9 (1:ℚ)) (List.replicate 9 1)
          (List.replicate 8 0) (List.replicate 28 0))
      ∧ (filtfiltRun (List.replicate 9 (1:ℚ)) (List.replicate 9 1)
          (List.replicate 8 0) (List.replicate 28 0)).length
        = (List.replicate 28 (0:ℚ)).length) :=
  ⟨by simp [padlenOf], C7_filtfilt_length _ _ _ _ (by simp [padlenOf])⟩

/-- C8: whenever the input's length does not exceed the padding length
dictated by the coefficient vectors (3·max(len(a), len(b)), 27 for the
order-4 bandpass), the application fails with the insufficient-samples
error instead of returning a sequence. -/
theorem C8_filtfilt_short (b a zi x : List ℚ) (h : x.length ≤ padlenOf b a) :
    filtfilt b a zi x = .error .insufficientSamples := by
  unfold filtfilt
  rw [if_pos h]

/-- Witness for C8 on a 27-sample input against 9-tap coefficients. -/
theorem C8_witness :
    (List.replicate 27 (0:ℚ)).length
        ≤ padlenOf (List.replicate 9 (1:ℚ)) (List.replicate 9 1)
    ∧ filtfilt (List.replicate 9 (1:ℚ)) (List.replicate 9 1)
        (List.replicate 8 0) (List.replicate 27 0)
        = .error .insufficientSamples :=
  ⟨by simp [padlenOf], C8_filtfilt_short _ _ _ _ (by simp [padlenOf])⟩

/-- C10: the signal-type dispatch is case-sensitive and accepts exactly
"ecg" and "eeg": the uppercase spellings (and every other string) fail
with the unsupported-signal-type error, while the two lowercase names
never produce it. -/
theorem C10_case_sensitive :
    (∀ fs : ℚ, designFilter "ECG" fs = .error .unsupportedSignalType)
    ∧ (∀ fs : ℚ, designFilter "EEG" fs = .error .unsupportedSignalType)
    ∧ (∀ (st : String) (fs : ℚ), st ≠ "ecg" → st ≠ "eeg" →
        designFilter st fs = .error .unsupportedSignalType)
    ∧ (∀ fs : ℚ, designFilter "ecg" fs ≠ .error .unsupportedSignalType)
    ∧ (∀ fs : ℚ, designFilter "eeg" fs ≠ .error .unsupportedSignalType) := by
  refine ⟨fun fs => designFilter_unknown _ (by decide) (by decide) fs 4,
    fun fs => designFilter_unknown _ (by decide) (by decide) fs 4,
    fun st fs h1 h2 => designFilter_unknown st h1 h2 fs 4, ?_, ?_⟩
  · intro fs
    by_cases hz : fs / 2 = 0
    · rw [designFilter_nyq_zero _ _ _ presetLookup_ecg fs hz 4]
      simp
    · rw [designFilter_eval _ _ _ presetLookup_ecg fs hz 4]
      split_ifs <;> simp
  · intro fs
    by_cases hz : fs / 2 = 0
    · rw [designFilter_nyq_zero _ _ _ presetLookup_eeg fs hz 4]
      simp
    · rw [designFilter_eval _ _ _ presetLookup_eeg fs hz 4]
      split_ifs <;> simp

/-- Witness for C10: the uppercase spelling "ECG" is rejected. -/
theorem C10_witness :
    ("ECG" : String) ≠ "ecg" ∧ ("ECG" : String) ≠ "eeg"
    ∧ designFilter "ECG" 100 = .error .unsupportedSignalType :=
  ⟨by decide, by decide, C10_case_sensitive.2.2.1 "ECG" 100 (by decide) (by decide)⟩
